import Mathlib

/- Verification of the geometric core of moleculetools (nics/moleculetools.py):
   vector primitives, the Rodrigues rotation builder, the homogeneous transform
   application, the consensus-axis finder and the Structure orchestration.
   Real-valued numpy arrays are modelled over the real numbers; a separate
   small model (FR below) captures the IEEE behaviour of division by zero for
   the claims that are about NaN production. -/

noncomputable section

/-- A 3-vector, modelling a numpy array of shape (3,). -/
@[ext]
structure Vec3 where
  x : ℝ
  y : ℝ
  z : ℝ

instance : Zero Vec3 := ⟨⟨0, 0, 0⟩⟩

instance : Add Vec3 := ⟨fun a b => ⟨a.x + b.x, a.y + b.y, a.z + b.z⟩⟩

instance : Sub Vec3 := ⟨fun a b => ⟨a.x - b.x, a.y - b.y, a.z - b.z⟩⟩

instance : SMul ℝ Vec3 := ⟨fun r v => ⟨r * v.x, r * v.y, r * v.z⟩⟩

@[simp] lemma Vec3.zero_x : (0 : Vec3).x = 0 := rfl

@[simp] lemma Vec3.zero_y : (0 : Vec3).y = 0 := rfl

@[simp] lemma Vec3.zero_z : (0 : Vec3).z = 0 := rfl

@[simp] lemma Vec3.add_x (a b : Vec3) : (a + b).x = a.x + b.x := rfl

@[simp] lemma Vec3.add_y (a b : Vec3) : (a + b).y = a.y + b.y := rfl

@[simp] lemma Vec3.add_z (a b : Vec3) : (a + b).z = a.z + b.z := rfl

@[simp] lemma Vec3.sub_x (a b : Vec3) : (a - b).x = a.x - b.x := rfl

@[simp] lemma Vec3.sub_y (a b : Vec3) : (a - b).y = a.y - b.y := rfl

@[simp] lemma Vec3.sub_z (a b : Vec3) : (a - b).z = a.z - b.z := rfl

@[simp] lemma Vec3.smul_x (r : ℝ) (v : Vec3) : (r • v).x = r * v.x := rfl

@[simp] lemma Vec3.smul_y (r : ℝ) (v : Vec3) : (r • v).y = r * v.y := rfl

@[simp] lemma Vec3.smul_z (r : ℝ) (v : Vec3) : (r • v).z = r * v.z := rfl

/-- Dot product, np.dot on 3-vectors. -/
def Vec3.dot (a b : Vec3) : ℝ := a.x * b.x + a.y * b.y + a.z * b.z

/-- Cross product, np.cross on 3-vectors. -/
def Vec3.cross (a b : Vec3) : Vec3 :=
  ⟨a.y * b.z - a.z * b.y, a.z * b.x - a.x * b.z, a.x * b.y - a.y * b.x⟩

/-- Euclidean norm, np.linalg.norm on a 3-vector. -/
def Vec3.norm (v : Vec3) : ℝ := Real.sqrt (v.x ^ 2 + v.y ^ 2 + v.z ^ 2)

/-- unit_vector from moleculetools: vector / np.linalg.norm(vector),
componentwise division by the scalar norm (idealised over the reals; the
division-by-zero behaviour of the float code is modelled separately by
unit_vectorF below). -/
def unit_vector (v : Vec3) : Vec3 :=
  ⟨v.x / v.norm, v.y / v.norm, v.z / v.norm⟩

/-- find_normal_from_points: unit normal of the plane through three points. -/
def find_normal_from_points (a b c : Vec3) : Vec3 :=
  unit_vector (Vec3.cross (b - a) (c - a))

/-- find_normal_from_vectors: unit normal to the plane spanned by two vectors. -/
def find_normal_from_vectors (u v : Vec3) : Vec3 :=
  unit_vector (Vec3.cross u v)

/-- np.clip of a scalar to the interval from lo to hi. -/
def clip (t lo hi : ℝ) : ℝ := min (max t lo) hi

/-- angle_between from moleculetools: arccos of the clipped dot of the unit
vectors. -/
def angle_between (u v : Vec3) : ℝ :=
  Real.arccos (clip (Vec3.dot (unit_vector u) (unit_vector v)) (-1) 1)

/-- A 3 by 3 real matrix with explicit entries (row major). -/
@[ext]
structure Mat3 where
  m00 : ℝ
  m01 : ℝ
  m02 : ℝ
  m10 : ℝ
  m11 : ℝ
  m12 : ℝ
  m20 : ℝ
  m21 : ℝ
  m22 : ℝ

def Mat3.transpose (A : Mat3) : Mat3 :=
  ⟨A.m00, A.m10, A.m20, A.m01, A.m11, A.m21, A.m02, A.m12, A.m22⟩

def Mat3.mul (A B : Mat3) : Mat3 :=
  ⟨A.m00 * B.m00 + A.m01 * B.m10 + A.m02 * B.m20,
   A.m00 * B.m01 + A.m01 * B.m11 + A.m02 * B.m21,
   A.m00 * B.m02 + A.m01 * B.m12 + A.m02 * B.m22,
   A.m10 * B.m00 + A.m11 * B.m10 + A.m12 * B.m20,
   A.m10 * B.m01 + A.m11 * B.m11 + A.m12 * B.m21,
   A.m10 * B.m02 + A.m11 * B.m12 + A.m12 * B.m22,
   A.m20 * B.m00 + A.m21 * B.m10 + A.m22 * B.m20,
   A.m20 * B.m01 + A.m21 * B.m11 + A.m22 * B.m21,
   A.m20 * B.m02 + A.m21 * B.m12 + A.m22 * B.m22⟩

def Mat3.one : Mat3 := ⟨1, 0, 0, 0, 1, 0, 0, 0, 1⟩

/-- Determinant by cofactor expansion along the first row. -/
def Mat3.det (A : Mat3) : ℝ :=
  A.m00 * (A.m11 * A.m22 - A.m12 * A.m21)
    - A.m01 * (A.m10 * A.m22 - A.m12 * A.m20)
    + A.m02 * (A.m10 * A.m21 - A.m11 * A.m20)

def Mat3.mulVec (A : Mat3) (v : Vec3) : Vec3 :=
  ⟨A.m00 * v.x + A.m01 * v.y + A.m02 * v.z,
   A.m10 * v.x + A.m11 * v.y + A.m12 * v.z,
   A.m20 * v.x + A.m21 * v.y + A.m22 * v.z⟩

def Mat3.add (A B : Mat3) : Mat3 :=
  ⟨A.m00 + B.m00, A.m01 + B.m01, A.m02 + B.m02,
   A.m10 + B.m10, A.m11 + B.m11, A.m12 + B.m12,
   A.m20 + B.m20, A.m21 + B.m21, A.m22 + B.m22⟩

def Mat3.smul (r : ℝ) (A : Mat3) : Mat3 :=
  ⟨r * A.m00, r * A.m01, r * A.m02,
   r * A.m10, r * A.m11, r * A.m12,
   r * A.m20, r * A.m21, r * A.m22⟩

/-- np.diag([c, c, c]). -/
def diag3 (c : ℝ) : Mat3 := ⟨c, 0, 0, 0, c, 0, 0, 0, c⟩

/-- np.outer(u, v) for 3-vectors. -/
def outer (u v : Vec3) : Mat3 :=
  ⟨u.x * v.x, u.x * v.y, u.x * v.z,
   u.y * v.x, u.y * v.y, u.y * v.z,
   u.z * v.x, u.z * v.y, u.z * v.z⟩

/-- The skew array literal built inside rotation_matrix from the (already
sin-scaled) direction w: rows (0, -w.z, w.y), (w.z, 0, -w.x), (-w.y, w.x, 0). -/
def skew_of (w : Vec3) : Mat3 :=
  ⟨0, -w.z, w.y, w.z, 0, -w.x, -w.y, w.x, 0⟩

/-- The 3 by 3 block R assembled inside rotation_matrix:
R = diag(cos, cos, cos) + outer(d, d) * (1 - cos) + skew(sin * d)
for the normalised direction d. -/
def rotation_R (angle : ℝ) (direction : Vec3) : Mat3 :=
  Mat3.add
    (Mat3.add (diag3 (Real.cos angle))
      (Mat3.smul (1 - Real.cos angle)
        (outer (unit_vector direction) (unit_vector direction))))
    (skew_of (Real.sin angle • unit_vector direction))

/-- A 4 by 4 real matrix with explicit entries (row major). -/
@[ext]
structure Mat4 where
  a00 : ℝ
  a01 : ℝ
  a02 : ℝ
  a03 : ℝ
  a10 : ℝ
  a11 : ℝ
  a12 : ℝ
  a13 : ℝ
  a20 : ℝ
  a21 : ℝ
  a22 : ℝ
  a23 : ℝ
  a30 : ℝ
  a31 : ℝ
  a32 : ℝ
  a33 : ℝ

/-- rotation_matrix from moleculetools: M = identity(4) with M[:3,:3] = R and,
when a pivot point is given, M[:3,3] = point - R.dot(point). -/
def rotation_matrix (angle : ℝ) (direction : Vec3) (point : Option Vec3) : Mat4 :=
  let R := rotation_R angle direction
  let t : Vec3 :=
    match point with
    | none => 0
    | some p => p - R.mulVec p
  ⟨R.m00, R.m01, R.m02, t.x,
   R.m10, R.m11, R.m12, t.y,
   R.m20, R.m21, R.m22, t.z,
   0, 0, 0, 1⟩

/-- The top left 3 by 3 block of a 4 by 4 matrix. -/
def Mat4.topLeft (M : Mat4) : Mat3 :=
  ⟨M.a00, M.a01, M.a02, M.a10, M.a11, M.a12, M.a20, M.a21, M.a22⟩

/-- One row of apply_4x4_matrix_to_3D_set: append a unit coordinate, multiply
by the matrix, drop the fourth coordinate. -/
def apply_4x4_matrix_to_point (M : Mat4) (v : Vec3) : Vec3 :=
  ⟨M.a00 * v.x + M.a01 * v.y + M.a02 * v.z + M.a03,
   M.a10 * v.x + M.a11 * v.y + M.a12 * v.z + M.a13,
   M.a20 * v.x + M.a21 * v.y + M.a22 * v.z + M.a23⟩

/-- apply_4x4_matrix_to_3D_set: homogenise every row, transform, dehomogenise. -/
def apply_4x4_matrix_to_3D_set (M : Mat4) (coords : List Vec3) : List Vec3 :=
  coords.map (apply_4x4_matrix_to_point M)

/-- The Rodrigues axis-angle formula exactly as the spec states it:
R = cos θ I + (1 - cos θ) (d dᵀ) + sin θ [d]x, to be compared with the block
assembled by rotation_matrix. -/
def rodrigues_formula_spec (θ : ℝ) (d : Vec3) : Mat3 :=
  Mat3.add
    (Mat3.add (Mat3.smul (Real.cos θ) Mat3.one)
      (Mat3.smul (1 - Real.cos θ) (outer d d)))
    (Mat3.smul (Real.sin θ) (skew_of d))

/-- Componentwise absolute value, np.abs on a 3-vector. -/
def vabs (v : Vec3) : Vec3 := ⟨|v.x|, |v.y|, |v.z|⟩

/-- np.mean(array, axis=0): the componentwise mean of a list of 3-vectors.
Also the componentwise mean taken by find_center. -/
def vmean (l : List Vec3) : Vec3 :=
  ⟨(l.map Vec3.x).sum / l.length, (l.map Vec3.y).sum / l.length,
   (l.map Vec3.z).sum / l.length⟩

/-- itertools.combinations(range n, 3): all strictly increasing index triples.
The source passes the combinations through list(set(..)), which leaves the
collection of triples unchanged (they are already distinct) and only scrambles
an order that the componentwise mean does not depend on. -/
def combs3 (n : ℕ) : List (ℕ × ℕ × ℕ) :=
  ((List.range n).flatMap fun i =>
    (List.range n).flatMap fun j =>
      (List.range n).map fun k => (i, j, k)).filter
    fun t => decide (t.1 < t.2.1 ∧ t.2.1 < t.2.2)

/-- One entry of the norm_list built by Structure.find_axis: the componentwise
absolute value of the re-normalised triangle normal of the index triple t. -/
def axisNormal (coords : List Vec3) (t : ℕ × ℕ × ℕ) : Vec3 :=
  vabs (unit_vector (find_normal_from_points (coords.getD t.1 0)
    (coords.getD t.2.1 0) (coords.getD t.2.2 0)))

/-- The consensus axis computed by Structure.find_axis over the first n indices
(the atoms=None default path): sign-folded per-triple normals, averaged
componentwise, re-normalised. -/
def axisOf (coords : List Vec3) (n : ℕ) : Vec3 :=
  unit_vector (vmean ((combs3 n).map (axisNormal coords)))

/-- The Structure class: atom labels, coordinates, natoms = len(atoms), plus
the derived center and main_axis. In the source the two derived fields do not
exist until the first recompute; they are modelled as fields holding a
placeholder zero until then, and no claim reads them before a recompute. -/
structure Structure where
  name : String
  atoms : List String
  coords : List Vec3
  natoms : ℕ
  center : Vec3
  main_axis : Vec3

/-- The constructor: stores the arguments as given, natoms = len(atoms), name
from the kwargs with default "system". The source performs no validation. -/
def Structure.init (atoms : List String) (coords : List Vec3)
    (nameOpt : Option String) : Structure :=
  { name := nameOpt.getD "system", atoms := atoms, coords := coords,
    natoms := atoms.length, center := 0, main_axis := 0 }

/-- Structure.find_center: componentwise mean of the current coordinates. -/
def Structure.find_center (s : Structure) : Structure :=
  { s with center := vmean s.coords }

/-- Structure.find_axis with the default atoms=None argument. -/
def Structure.find_axis (s : Structure) : Structure :=
  { s with main_axis := axisOf s.coords s.natoms }

/-- update_geometry: find_center then find_axis. -/
def Structure.update_geometry (s : Structure) : Structure :=
  s.find_center.find_axis

/-- translate_to_center: recompute the geometry, subtract the center from every
row of coords (the source builds an natoms by 3 matrix of copies of the center
and subtracts it rowwise), then recompute the geometry again. -/
def Structure.translate_to_center (s : Structure) : Structure :=
  let s1 := s.update_geometry
  let s2 := { s1 with coords := s1.coords.map fun p => p - s1.center }
  s2.update_geometry

/-- rotate_to_z: recompute the geometry, rotate the coordinates by the angle
between main_axis and (0,0,1) about the normal of the two, pivoting at the
center, then recompute the geometry again. -/
def Structure.rotate_to_z (s : Structure) : Structure :=
  let s1 := s.update_geometry
  let zv : Vec3 := ⟨0, 0, 1⟩
  let angle := angle_between s1.main_axis zv
  let direction := find_normal_from_vectors s1.main_axis zv
  let M := rotation_matrix angle direction (some s1.center)
  let s2 := { s1 with coords := apply_4x4_matrix_to_3D_set M s1.coords }
  s2.update_geometry

/-- Model of an IEEE double for the claims about division by zero: nan, one of
the two infinities, or a finite real. -/
inductive FR where
  | nan : FR
  | inf : FR
  | ninf : FR
  | fin : ℝ → FR

/-- IEEE division for the finite-operand cases the claims exercise: a finite
numerator over zero gives nan when the numerator is zero and a signed infinity
otherwise. A non-finite operand is collapsed to nan here; every evaluation
below reaches this function with finite operands only. -/
def FR.div (a b : FR) : FR :=
  match a, b with
  | FR.fin p, FR.fin q =>
    if q = 0 then (if p = 0 then FR.nan else if 0 < p then FR.inf else FR.ninf)
    else FR.fin (p / q)
  | _, _ => FR.nan

/-- A 3-vector of IEEE values. -/
structure FRVec where
  x : FR
  y : FR
  z : FR

/-- unit_vector under IEEE semantics for a finite input vector:
vector / np.linalg.norm(vector) componentwise; when the norm is zero the
division is still performed and produces non-finite components. -/
def unit_vectorF (v : Vec3) : FRVec :=
  ⟨FR.div (FR.fin v.x) (FR.fin v.norm),
   FR.div (FR.fin v.y) (FR.fin v.norm),
   FR.div (FR.fin v.z) (FR.fin v.norm)⟩

/-- find_normal_from_vectors under IEEE semantics for finite inputs: the
unit vector of the cross product. -/
def find_normal_from_vectorsF (u v : Vec3) : FRVec :=
  unit_vectorF (Vec3.cross u v)

/-- The planar unit square point set named by the spec. -/
def sqCoords : List Vec3 := [⟨0, 0, 0⟩, ⟨1, 0, 0⟩, ⟨0, 1, 0⟩, ⟨1, 1, 0⟩]

/-- A Structure holding the planar square. -/
def sqStructure : Structure := Structure.init ["C", "C", "C", "C"] sqCoords none

/-- A right-triangle point set whose single index triple is not collinear. -/
def triCoords : List Vec3 := [⟨0, 0, 0⟩, ⟨1, 0, 0⟩, ⟨0, 1, 0⟩]

/-- A two-point structure, used to witness that re-centering also runs the
axis finder. -/
def pairStructure : Structure :=
  Structure.init ["H", "H"] [⟨0, 0, 0⟩, ⟨1, 1, 1⟩] none

lemma Vec3.sumsq_pos (v : Vec3) (hv : v ≠ 0) : 0 < v.x ^ 2 + v.y ^ 2 + v.z ^ 2 := by
  rcases (by positivity : (0 : ℝ) ≤ v.x ^ 2 + v.y ^ 2 + v.z ^ 2).lt_or_eq with h | h
  · exact h
  · exfalso
    apply hv
    have hx : v.x = 0 := by
      have h2 : v.x ^ 2 = 0 := by nlinarith [sq_nonneg v.y, sq_nonneg v.z]
      exact sq_eq_zero_iff.mp h2
    have hy : v.y = 0 := by
      have h2 : v.y ^ 2 = 0 := by nlinarith [sq_nonneg v.x, sq_nonneg v.z]
      exact sq_eq_zero_iff.mp h2
    have hz : v.z = 0 := by
      have h2 : v.z ^ 2 = 0 := by nlinarith [sq_nonneg v.x, sq_nonneg v.y]
      exact sq_eq_zero_iff.mp h2
    ext <;> simp [hx, hy, hz]

lemma Vec3.norm_pos (v : Vec3) (hv : v ≠ 0) : 0 < v.norm :=
  Real.sqrt_pos.mpr (Vec3.sumsq_pos v hv)

lemma Vec3.sq_norm (v : Vec3) : v.norm ^ 2 = v.x ^ 2 + v.y ^ 2 + v.z ^ 2 :=
  Real.sq_sqrt (by positivity)

lemma unit_vector_sumsq (v : Vec3) (hv : v ≠ 0) :
    (unit_vector v).x ^ 2 + (unit_vector v).y ^ 2 + (unit_vector v).z ^ 2 = 1 := by
  have hn := Vec3.norm_pos v hv
  have hne : v.norm ≠ 0 := ne_of_gt hn
  have h2 := Vec3.sq_norm v
  simp [unit_vector]
  field_simp
  linarith [h2]

lemma unit_vector_norm_one (v : Vec3) (hv : v ≠ 0) : (unit_vector v).norm = 1 := by
  have h := unit_vector_sumsq v hv
  unfold Vec3.norm
  rw [h]
  exact Real.sqrt_one

lemma unit_vector_of_norm_one (v : Vec3) (h : v.norm = 1) : unit_vector v = v := by
  ext <;> simp [unit_vector, h]

@[simp] lemma Vec3.sub_zero (v : Vec3) : v - 0 = v := by
  ext <;> simp

lemma mem_combs3 {n i j k : ℕ} :
    ((i, j, k) ∈ combs3 n) ↔ (i < j ∧ j < k ∧ k < n) := by
  simp [combs3, List.mem_filter, List.mem_flatMap, List.mem_range]
  constructor
  · rintro ⟨⟨a, ha, b, hb, c, hc, rfl, rfl, rfl⟩, h2⟩
    exact ⟨h2.1, h2.2, hc⟩
  · rintro ⟨h1, h2, h3⟩
    exact ⟨⟨i, by omega, j, by omega, k, by omega, rfl, rfl, rfl⟩, h1, h2⟩

lemma combs3_eq_nil {n : ℕ} (h : n < 3) : combs3 n = [] := by
  rw [List.eq_nil_iff_forall_not_mem]
  rintro ⟨i, j, k⟩ hm
  rw [mem_combs3] at hm
  omega

lemma sum_map_sub_scalar (l : List Vec3) (f : Vec3 → ℝ) (k : ℝ) :
    (l.map fun p => f p - k).sum = (l.map f).sum - l.length * k := by
  induction l with
  | nil => simp
  | cons a t ih =>
    simp [ih]
    ring

lemma sum_map_add3 (L : List Vec3) :
    (L.map fun w => w.x + w.y + w.z).sum
      = (L.map Vec3.x).sum + (L.map Vec3.y).sum + (L.map Vec3.z).sum := by
  induction L with
  | nil => simp
  | cons a t ih =>
    simp [ih]
    ring

/-- The componentwise mean of a nonempty list, after subtracting that same
mean from every entry, is the zero vector. -/
lemma vmean_translated (l : List Vec3) (hne : l ≠ []) :
    vmean (l.map fun p => p - vmean l) = 0 := by
  have hlen : ((l.length : ℝ)) ≠ 0 :=
    Nat.cast_ne_zero.mpr (List.length_pos.mpr hne).ne'
  have key : ∀ f : Vec3 → ℝ, (∀ a b : Vec3, f (a - b) = f a - f b) →
      f (vmean l) = (l.map f).sum / l.length →
      ((l.map fun p => p - vmean l).map f).sum
        / (((l.map fun p => p - vmean l).length : ℕ) : ℝ) = 0 := by
    intro f hf hfv
    rw [List.map_map]
    have hco : (f ∘ fun p => p - vmean l) = fun p => f p - f (vmean l) := by
      funext p
      simp [Function.comp, hf]
    rw [hco, sum_map_sub_scalar, List.length_map, hfv]
    have hmc : (l.length : ℝ) * ((l.map f).sum / l.length) = (l.map f).sum := by
      field_simp
    rw [hmc, sub_self, zero_div]
  ext
  · exact key Vec3.x (fun a b => rfl) rfl
  · exact key Vec3.y (fun a b => rfl) rfl
  · exact key Vec3.z (fun a b => rfl) rfl

/-- C7 counterexample: the constructor accepts one label with two points and
produces the mismatched Structure, raising no error. -/
theorem init_mismatched_lengths_succeeds :
    (Structure.init ["H"] [⟨0, 0, 0⟩, ⟨1, 0, 0⟩] none).atoms.length = 1
      ∧ (Structure.init ["H"] [⟨0, 0, 0⟩, ⟨1, 0, 0⟩] none).coords.length = 2 :=
  ⟨rfl, rfl⟩

/-- C7 amended: the constructor performs no validation at all; it stores the
labels and points exactly as given, sets natoms to the label count whatever
the point count is, and always succeeds. -/
theorem init_stores_arguments (atoms : List String) (coords : List Vec3)
    (nameOpt : Option String) :
    (Structure.init atoms coords nameOpt).atoms = atoms
      ∧ (Structure.init atoms coords nameOpt).coords = coords
      ∧ (Structure.init atoms coords nameOpt).natoms = atoms.length
      ∧ (Structure.init atoms coords nameOpt).name = Option.getD nameOpt "system" :=
  ⟨rfl, rfl, rfl, rfl⟩

/-- C8 counterexample: called on the zero vector, unit_vector performs the
division and returns the all-nan vector, a non-finite numeric result; no
precondition error interrupts the call. -/
theorem unit_vector_zero_vector_nan :
    unit_vectorF ⟨0, 0, 0⟩ = ⟨FR.nan, FR.nan, FR.nan⟩ := by
  have hn : Vec3.norm ⟨0, 0, 0⟩ = 0 := by
    unfold Vec3.norm
    norm_num [Real.sqrt_zero]
  unfold unit_vectorF
  rw [hn]
  simp [FR.div]

/-- C8 amended: for every zero-length input vector, unit_vector performs the
division anyway and returns the all-nan vector; no error is raised. -/
theorem unit_vector_zero_norm_nan (v : Vec3) (h : v.norm = 0) :
    unit_vectorF v = ⟨FR.nan, FR.nan, FR.nan⟩ := by
  have hs : v.x ^ 2 + v.y ^ 2 + v.z ^ 2 = 0 := by
    have h2 := Vec3.sq_norm v
    rw [h] at h2
    norm_num at h2
    exact h2.symm
  have hx : v.x = 0 := sq_eq_zero_iff.mp (by nlinarith [sq_nonneg v.y, sq_nonneg v.z])
  have hy : v.y = 0 := sq_eq_zero_iff.mp (by nlinarith [sq_nonneg v.x, sq_nonneg v.z])
  have hz : v.z = 0 := sq_eq_zero_iff.mp (by nlinarith [sq_nonneg v.x, sq_nonneg v.y])
  unfold unit_vectorF
  rw [h, hx, hy, hz]
  simp [FR.div]

/-- Witness for the amended C8 at the zero vector itself. -/
theorem unit_vector_zero_norm_nan_witness :
    unit_vectorF ⟨0, 0, 0⟩ = ⟨FR.nan, FR.nan, FR.nan⟩ :=
  unit_vector_zero_norm_nan ⟨0, 0, 0⟩ (by
    unfold Vec3.norm
    norm_num [Real.sqrt_zero])

/-- C9: the geometric operations touch only coords and the cached center and
main_axis; the label list, the atom count and the name come through both
translate_to_center and rotate_to_z unchanged. The hypothesis records the
numpy shape precondition that natoms matches the row count. -/
theorem geometry_ops_preserve_labels (s : Structure)
    (h : s.natoms = s.coords.length) :
    (s.translate_to_center).atoms = s.atoms
      ∧ (s.translate_to_center).natoms = s.natoms
      ∧ (s.translate_to_center).name = s.name
      ∧ (s.rotate_to_z).atoms = s.atoms
      ∧ (s.rotate_to_z).natoms = s.natoms
      ∧ (s.rotate_to_z).name = s.name :=
  ⟨rfl, rfl, rfl, rfl, rfl, rfl⟩

/-- Witness for C9 on a concrete two-atom structure. -/
theorem geometry_ops_preserve_labels_witness :
    (pairStructure.translate_to_center).atoms = pairStructure.atoms
      ∧ (pairStructure.translate_to_center).natoms = pairStructure.natoms
      ∧ (pairStructure.translate_to_center).name = pairStructure.name
      ∧ (pairStructure.rotate_to_z).atoms = pairStructure.atoms
      ∧ (pairStructure.rotate_to_z).natoms = pairStructure.natoms
      ∧ (pairStructure.rotate_to_z).name = pairStructure.name :=
  geometry_ops_preserve_labels pairStructure rfl

/-- C6: translate_to_center leaves the recomputed center at the origin, and a
second consecutive call changes no coordinate. The hypotheses record the numpy
shape precondition and that the point set is nonempty (the mean of an empty
array is not a number). -/
theorem translate_to_center_zero_and_idempotent (s : Structure)
    (hmatch : s.natoms = s.coords.length) (hne : s.coords ≠ []) :
    (s.translate_to_center).center = 0
      ∧ ((s.translate_to_center).translate_to_center).coords
          = (s.translate_to_center).coords := by
  have hc : (s.translate_to_center).center
      = vmean (s.coords.map fun p => p - vmean s.coords) := rfl
  have h0 : vmean (s.coords.map fun p => p - vmean s.coords) = 0 :=
    vmean_translated s.coords hne
  refine ⟨hc.trans h0, ?_⟩
  have hcoords : (s.translate_to_center).coords
      = s.coords.map fun p => p - vmean s.coords := rfl
  have hstep : ((s.translate_to_center).translate_to_center).coords
      = (s.translate_to_center).coords.map
          fun p => p - vmean (s.translate_to_center).coords := rfl
  rw [hstep, hcoords, h0]
  simp

/-- C10: every call to translate_to_center ends by recomputing and overwriting
main_axis from the translated coordinates (whatever value it held before), and
for a structure with fewer than three points the triple list driving that
recomputation is empty, so the averaged axis is the mean of an empty array. -/
theorem translate_to_center_recomputes_axis (s : Structure)
    (hmatch : s.natoms = s.coords.length) :
    (s.translate_to_center).main_axis
        = axisOf (s.coords.map fun p => p - vmean s.coords) s.natoms
      ∧ (s.natoms < 3 → combs3 s.natoms = []) :=
  ⟨rfl, fun h3 => combs3_eq_nil h3⟩

/-- Witness for C10 on a concrete two-atom structure. -/
theorem translate_to_center_recomputes_axis_witness :
    (pairStructure.translate_to_center).main_axis
        = axisOf (pairStructure.coords.map fun p => p - vmean pairStructure.coords) 2
      ∧ combs3 2 = [] :=
  ⟨(translate_to_center_recomputes_axis pairStructure rfl).1,
   (translate_to_center_recomputes_axis pairStructure rfl).2 (by decide)⟩

/-- Witness for C6 on a concrete two-atom structure. -/
theorem translate_to_center_zero_and_idempotent_witness :
    (pairStructure.translate_to_center).center = 0
      ∧ ((pairStructure.translate_to_center).translate_to_center).coords
          = (pairStructure.translate_to_center).coords :=
  translate_to_center_zero_and_idempotent pairStructure rfl (by
    simp [pairStructure, Structure.init])

/-- Orthonormality of the assembled Rodrigues block, for any unit direction d
and any cosine and sine pair on the unit circle. -/
lemma rodrigues_block_ortho (c s : ℝ) (d : Vec3)
    (h1 : d.x ^ 2 + d.y ^ 2 + d.z ^ 2 = 1) (h2 : s ^ 2 + c ^ 2 = 1) :
    Mat3.mul
      (Mat3.transpose
        (Mat3.add (Mat3.add (diag3 c) (Mat3.smul (1 - c) (outer d d)))
          (skew_of (s • d))))
      (Mat3.add (Mat3.add (diag3 c) (Mat3.smul (1 - c) (outer d d)))
        (skew_of (s • d))) = Mat3.one := by
  refine Mat3.ext ?_ ?_ ?_ ?_ ?_ ?_ ?_ ?_ ?_ <;>
    simp [Mat3.mul, Mat3.transpose, Mat3.add, Mat3.smul, diag3, outer, skew_of,
      Mat3.one]
  · linear_combination (s ^ 2 + (1 - c) ^ 2 * d.x ^ 2) * h1 + (1 - d.x ^ 2) * h2
  · linear_combination ((1 - c) ^ 2 * d.x * d.y) * h1 - d.x * d.y * h2
  · linear_combination ((1 - c) ^ 2 * d.x * d.z) * h1 - d.x * d.z * h2
  · linear_combination ((1 - c) ^ 2 * d.x * d.y) * h1 - d.x * d.y * h2
  · linear_combination (s ^ 2 + (1 - c) ^ 2 * d.y ^ 2) * h1 + (1 - d.y ^ 2) * h2
  · linear_combination ((1 - c) ^ 2 * d.y * d.z) * h1 - d.y * d.z * h2
  · linear_combination ((1 - c) ^ 2 * d.x * d.z) * h1 - d.x * d.z * h2
  · linear_combination ((1 - c) ^ 2 * d.y * d.z) * h1 - d.y * d.z * h2
  · linear_combination (s ^ 2 + (1 - c) ^ 2 * d.z ^ 2) * h1 + (1 - d.z ^ 2) * h2

/-- Determinant one for the assembled Rodrigues block. -/
lemma rodrigues_block_det (c s : ℝ) (d : Vec3)
    (h1 : d.x ^ 2 + d.y ^ 2 + d.z ^ 2 = 1) (h2 : s ^ 2 + c ^ 2 = 1) :
    Mat3.det
      (Mat3.add (Mat3.add (diag3 c) (Mat3.smul (1 - c) (outer d d)))
        (skew_of (s • d))) = 1 := by
  simp [Mat3.det, Mat3.add, Mat3.smul, diag3, outer, skew_of]
  linear_combination
    (c ^ 2 * (1 - c) + c * s ^ 2 + 2 * s ^ 2 * (1 - c)
      + (d.x ^ 2 + d.y ^ 2 + d.z ^ 2 - 1) * (s ^ 2 * (1 - c))) * h1 + h2

/-- C3: for every angle and every nonzero direction, the top left 3 by 3 block
of the matrix returned by rotation_matrix equals the Rodrigues axis-angle
formula at the normalised direction, and is a proper rotation: its transpose
times itself is the identity and its determinant is one. -/
theorem rotation_matrix_block_proper (angle : ℝ) (direction : Vec3)
    (pt : Option Vec3) (hd : direction ≠ 0) :
    (rotation_matrix angle direction pt).topLeft
        = rodrigues_formula_spec angle (unit_vector direction)
      ∧ Mat3.mul (Mat3.transpose ((rotation_matrix angle direction pt).topLeft))
          ((rotation_matrix angle direction pt).topLeft) = Mat3.one
      ∧ Mat3.det ((rotation_matrix angle direction pt).topLeft) = 1 := by
  have htl : (rotation_matrix angle direction pt).topLeft = rotation_R angle direction := by
    cases pt <;> rfl
  have h1 := unit_vector_sumsq direction hd
  have h2 := Real.sin_sq_add_cos_sq angle
  refine ⟨?_, ?_, ?_⟩
  · rw [htl]
    ext <;>
      simp [rotation_R, rodrigues_formula_spec, Mat3.add, Mat3.smul, diag3,
        outer, skew_of, Mat3.one]
  · rw [htl]
    exact rodrigues_block_ortho (Real.cos angle) (Real.sin angle)
      (unit_vector direction) h1 h2
  · rw [htl]
    exact rodrigues_block_det (Real.cos angle) (Real.sin angle)
      (unit_vector direction) h1 h2

/-- Witness for C3 at angle 0, direction (0,0,1), no pivot. -/
theorem rotation_matrix_block_proper_witness :
    (rotation_matrix 0 ⟨0, 0, 1⟩ none).topLeft
        = rodrigues_formula_spec 0 (unit_vector ⟨0, 0, 1⟩)
      ∧ Mat3.mul (Mat3.transpose ((rotation_matrix 0 ⟨0, 0, 1⟩ none).topLeft))
          ((rotation_matrix 0 ⟨0, 0, 1⟩ none).topLeft) = Mat3.one
      ∧ Mat3.det ((rotation_matrix 0 ⟨0, 0, 1⟩ none).topLeft) = 1 :=
  rotation_matrix_block_proper 0 ⟨0, 0, 1⟩ none (by
    intro h
    have hz := congrArg Vec3.z h
    norm_num at hz)

/-- C2: for every angle, every nonzero direction and every pivot point p, the
4 by 4 transform built by rotation_matrix with pivot p maps p to itself,
because the translation block is p minus R applied to p. -/
theorem rotation_matrix_pivot_fixed (angle : ℝ) (direction p : Vec3)
    (hd : direction ≠ 0) :
    apply_4x4_matrix_to_point (rotation_matrix angle direction (some p)) p = p := by
  clear hd
  ext <;>
    simp [apply_4x4_matrix_to_point, rotation_matrix, rotation_R, Mat3.mulVec,
      Mat3.add, Mat3.smul, diag3, outer, skew_of]

/-- Witness for C2 at angle 0, direction (0,0,1), pivot (1,2,3). -/
theorem rotation_matrix_pivot_fixed_witness :
    apply_4x4_matrix_to_point (rotation_matrix 0 ⟨0, 0, 1⟩ (some ⟨1, 2, 3⟩)) ⟨1, 2, 3⟩
      = ⟨1, 2, 3⟩ :=
  rotation_matrix_pivot_fixed 0 ⟨0, 0, 1⟩ ⟨1, 2, 3⟩ (by
    intro h
    have hz := congrArg Vec3.z h
    norm_num at hz)

lemma norm_z : Vec3.norm ⟨0, 0, 1⟩ = 1 := by
  unfold Vec3.norm
  norm_num

lemma norm_negz : Vec3.norm ⟨0, 0, -1⟩ = 1 := by
  unfold Vec3.norm
  norm_num

lemma unit_z : unit_vector ⟨0, 0, 1⟩ = ⟨0, 0, 1⟩ := by
  ext <;> simp [unit_vector, norm_z]

lemma unit_negz : unit_vector ⟨0, 0, -1⟩ = ⟨0, 0, -1⟩ := by
  ext <;> simp [unit_vector, norm_negz]

lemma axisNormal_sq_012 : axisNormal sqCoords (0, 1, 2) = ⟨0, 0, 1⟩ := by
  have hcross : Vec3.cross ((⟨1, 0, 0⟩ : Vec3) - ⟨0, 0, 0⟩)
      ((⟨0, 1, 0⟩ : Vec3) - ⟨0, 0, 0⟩) = ⟨0, 0, 1⟩ := by
    ext <;> simp [Vec3.cross]
  show vabs (unit_vector (unit_vector (Vec3.cross ((⟨1, 0, 0⟩ : Vec3) - ⟨0, 0, 0⟩)
    ((⟨0, 1, 0⟩ : Vec3) - ⟨0, 0, 0⟩)))) = ⟨0, 0, 1⟩
  rw [hcross, unit_z, unit_z]
  ext <;> simp [vabs]

lemma axisNormal_sq_013 : axisNormal sqCoords (0, 1, 3) = ⟨0, 0, 1⟩ := by
  have hcross : Vec3.cross ((⟨1, 0, 0⟩ : Vec3) - ⟨0, 0, 0⟩)
      ((⟨1, 1, 0⟩ : Vec3) - ⟨0, 0, 0⟩) = ⟨0, 0, 1⟩ := by
    ext <;> simp [Vec3.cross]
  show vabs (unit_vector (unit_vector (Vec3.cross ((⟨1, 0, 0⟩ : Vec3) - ⟨0, 0, 0⟩)
    ((⟨1, 1, 0⟩ : Vec3) - ⟨0, 0, 0⟩)))) = ⟨0, 0, 1⟩
  rw [hcross, unit_z, unit_z]
  ext <;> simp [vabs]

lemma axisNormal_sq_023 : axisNormal sqCoords (0, 2, 3) = ⟨0, 0, 1⟩ := by
  have hcross : Vec3.cross ((⟨0, 1, 0⟩ : Vec3) - ⟨0, 0, 0⟩)
      ((⟨1, 1, 0⟩ : Vec3) - ⟨0, 0, 0⟩) = ⟨0, 0, -1⟩ := by
    ext <;> simp [Vec3.cross]
  show vabs (unit_vector (unit_vector (Vec3.cross ((⟨0, 1, 0⟩ : Vec3) - ⟨0, 0, 0⟩)
    ((⟨1, 1, 0⟩ : Vec3) - ⟨0, 0, 0⟩)))) = ⟨0, 0, 1⟩
  rw [hcross, unit_negz, unit_negz]
  ext <;> simp [vabs]

lemma axisNormal_sq_123 : axisNormal sqCoords (1, 2, 3) = ⟨0, 0, 1⟩ := by
  have hcross : Vec3.cross ((⟨0, 1, 0⟩ : Vec3) - ⟨1, 0, 0⟩)
      ((⟨1, 1, 0⟩ : Vec3) - ⟨1, 0, 0⟩) = ⟨0, 0, -1⟩ := by
    ext <;> simp [Vec3.cross]
  show vabs (unit_vector (unit_vector (Vec3.cross ((⟨0, 1, 0⟩ : Vec3) - ⟨1, 0, 0⟩)
    ((⟨1, 1, 0⟩ : Vec3) - ⟨1, 0, 0⟩)))) = ⟨0, 0, 1⟩
  rw [hcross, unit_negz, unit_negz]
  ext <;> simp [vabs]

/-- The consensus axis of the planar unit square, computed exactly. -/
lemma axisOf_sq : axisOf sqCoords 4 = ⟨0, 0, 1⟩ := by
  have hc : combs3 4 = [(0, 1, 2), (0, 1, 3), (0, 2, 3), (1, 2, 3)] := by decide
  show unit_vector (vmean ((combs3 4).map (axisNormal sqCoords))) = ⟨0, 0, 1⟩
  rw [hc, List.map_cons, List.map_cons, List.map_cons, List.map_cons, List.map_nil,
    axisNormal_sq_012, axisNormal_sq_013, axisNormal_sq_023, axisNormal_sq_123]
  have hm : vmean [(⟨0, 0, 1⟩ : Vec3), ⟨0, 0, 1⟩, ⟨0, 0, 1⟩, ⟨0, 0, 1⟩] = ⟨0, 0, 1⟩ := by
    ext <;> simp [vmean] <;> norm_num
  rw [hm, unit_z]

/-- C5: on the planar four-point set (0,0,0), (1,0,0), (0,1,0), (1,1,0), the
consensus-axis finder of Structure.find_axis returns exactly (0,0,1). -/
theorem square_find_axis_exact :
    (sqStructure.find_axis).main_axis = ⟨0, 0, 1⟩ := by
  show axisOf sqCoords 4 = ⟨0, 0, 1⟩
  exact axisOf_sq

/-- C1 evidence: on the planar square the recomputed main_axis is exactly
(0,0,1), already parallel to the target axis; the rotation direction that
rotate_to_z then computes is the unit vector of the zero cross product, which
under IEEE semantics is the all-nan vector, not any identity special case.
The nans then propagate through rotation_matrix into every coordinate. -/
theorem rotate_to_z_aligned_nan_direction :
    find_normal_from_vectorsF (sqStructure.update_geometry).main_axis ⟨0, 0, 1⟩
      = ⟨FR.nan, FR.nan, FR.nan⟩ := by
  have hax : (sqStructure.update_geometry).main_axis = ⟨0, 0, 1⟩ := by
    show axisOf sqCoords 4 = ⟨0, 0, 1⟩
    exact axisOf_sq
  rw [hax]
  have hcr : Vec3.cross (⟨0, 0, 1⟩ : Vec3) ⟨0, 0, 1⟩ = ⟨0, 0, 0⟩ := by
    ext <;> simp [Vec3.cross]
  show unit_vectorF (Vec3.cross ⟨0, 0, 1⟩ ⟨0, 0, 1⟩) = ⟨FR.nan, FR.nan, FR.nan⟩
  rw [hcr]
  have hn : Vec3.norm ⟨0, 0, 0⟩ = 0 := by
    unfold Vec3.norm
    norm_num [Real.sqrt_zero]
  unfold unit_vectorF
  rw [hn]
  simp [FR.div]

/-- A sign-folded, doubly re-normalised nonzero vector has unit square sum and
componentwise non-negative entries. -/
lemma vabs_unit_unit (w : Vec3) (hw : w ≠ 0) :
    ((vabs (unit_vector (unit_vector w))).x ^ 2
        + (vabs (unit_vector (unit_vector w))).y ^ 2
        + (vabs (unit_vector (unit_vector w))).z ^ 2 = 1)
      ∧ 0 ≤ (vabs (unit_vector (unit_vector w))).x
      ∧ 0 ≤ (vabs (unit_vector (unit_vector w))).y
      ∧ 0 ≤ (vabs (unit_vector (unit_vector w))).z := by
  rw [unit_vector_of_norm_one _ (unit_vector_norm_one w hw)]
  refine ⟨?_, abs_nonneg _, abs_nonneg _, abs_nonneg _⟩
  have hs := unit_vector_sumsq w hw
  simpa [vabs, sq_abs] using hs

/-- C4: on a point set of at least three points with no collinear index
triple, the consensus-axis finder returns a vector of unit length whose three
components are all non-negative. -/
theorem find_axis_unit_nonneg (coords : List Vec3)
    (h3 : 3 ≤ coords.length)
    (hnc : ∀ i j k : ℕ, i < j → j < k → k < coords.length →
      Vec3.cross (coords.getD j 0 - coords.getD i 0)
        (coords.getD k 0 - coords.getD i 0) ≠ 0) :
    (axisOf coords coords.length).norm = 1
      ∧ 0 ≤ (axisOf coords coords.length).x
      ∧ 0 ≤ (axisOf coords coords.length).y
      ∧ 0 ≤ (axisOf coords coords.length).z := by
  have helem : ∀ w ∈ (combs3 coords.length).map (axisNormal coords),
      (w.x ^ 2 + w.y ^ 2 + w.z ^ 2 = 1) ∧ 0 ≤ w.x ∧ 0 ≤ w.y ∧ 0 ≤ w.z := by
    intro w hw
    rw [List.mem_map] at hw
    obtain ⟨t, ht, rfl⟩ := hw
    obtain ⟨i, j, k⟩ := t
    rw [mem_combs3] at ht
    exact vabs_unit_unit _ (hnc i j k ht.1 ht.2.1 ht.2.2)
  set L := (combs3 coords.length).map (axisNormal coords) with hL
  have hLne : L ≠ [] := by
    intro h0
    rw [hL, List.map_eq_nil_iff] at h0
    have hmem : ((0, 1, 2) : ℕ × ℕ × ℕ) ∈ combs3 coords.length :=
      mem_combs3.mpr ⟨by norm_num, by norm_num, by omega⟩
    rw [h0] at hmem
    exact List.not_mem_nil _ hmem
  have hsx : 0 ≤ (L.map Vec3.x).sum := by
    apply List.sum_nonneg
    intro a ha
    rw [List.mem_map] at ha
    obtain ⟨w, hw, rfl⟩ := ha
    exact (helem w hw).2.1
  have hsy : 0 ≤ (L.map Vec3.y).sum := by
    apply List.sum_nonneg
    intro a ha
    rw [List.mem_map] at ha
    obtain ⟨w, hw, rfl⟩ := ha
    exact (helem w hw).2.2.1
  have hsz : 0 ≤ (L.map Vec3.z).sum := by
    apply List.sum_nonneg
    intro a ha
    rw [List.mem_map] at ha
    obtain ⟨w, hw, rfl⟩ := ha
    exact (helem w hw).2.2.2
  have htot : 0 < (L.map fun w => w.x + w.y + w.z).sum := by
    apply List.sum_pos
    · intro a ha
      rw [List.mem_map] at ha
      obtain ⟨w, hw, rfl⟩ := ha
      obtain ⟨h1, hx, hy, hz⟩ := helem w hw
      by_contra hle
      push_neg at hle
      have hx0 : w.x = 0 := le_antisymm (by linarith) hx
      have hy0 : w.y = 0 := le_antisymm (by linarith) hy
      have hz0 : w.z = 0 := le_antisymm (by linarith) hz
      rw [hx0, hy0, hz0] at h1
      norm_num at h1
    · intro h0
      rw [List.map_eq_nil_iff] at h0
      exact hLne h0
  have hlen : (0 : ℝ) < L.length := by
    exact_mod_cast List.length_pos.mpr hLne
  have hlen0 : ((L.length : ℕ) : ℝ) ≠ 0 := ne_of_gt hlen
  have hmx : 0 ≤ (vmean L).x := div_nonneg hsx (le_of_lt hlen)
  have hmy : 0 ≤ (vmean L).y := div_nonneg hsy (le_of_lt hlen)
  have hmz : 0 ≤ (vmean L).z := div_nonneg hsz (le_of_lt hlen)
  have hmne : vmean L ≠ 0 := by
    intro h0
    have hx0 : (L.map Vec3.x).sum = 0 := by
      have hxc : (L.map Vec3.x).sum / ((L.length : ℕ) : ℝ) = 0 := congrArg Vec3.x h0
      field_simp [hlen0] at hxc
      exact hxc
    have hy0 : (L.map Vec3.y).sum = 0 := by
      have hyc : (L.map Vec3.y).sum / ((L.length : ℕ) : ℝ) = 0 := congrArg Vec3.y h0
      field_simp [hlen0] at hyc
      exact hyc
    have hz0 : (L.map Vec3.z).sum = 0 := by
      have hzc : (L.map Vec3.z).sum / ((L.length : ℕ) : ℝ) = 0 := congrArg Vec3.z h0
      field_simp [hlen0] at hzc
      exact hzc
    rw [sum_map_add3, hx0, hy0, hz0] at htot
    norm_num at htot
  refine ⟨unit_vector_norm_one _ hmne, ?_, ?_, ?_⟩
  · exact div_nonneg hmx (Real.sqrt_nonneg _)
  · exact div_nonneg hmy (Real.sqrt_nonneg _)
  · exact div_nonneg hmz (Real.sqrt_nonneg _)

/-- Witness for C4 on the three-point right triangle. -/
theorem find_axis_unit_nonneg_witness :
    (axisOf triCoords triCoords.length).norm = 1
      ∧ 0 ≤ (axisOf triCoords triCoords.length).x
      ∧ 0 ≤ (axisOf triCoords triCoords.length).y
      ∧ 0 ≤ (axisOf triCoords triCoords.length).z :=
  find_axis_unit_nonneg triCoords (by norm_num [triCoords]) (by
    intro i j k hij hjk hk
    have hk3 : k < 3 := hk
    have hi : i = 0 := by omega
    have hj : j = 1 := by omega
    have hk2 : k = 2 := by omega
    subst hi
    subst hj
    subst hk2
    have hcr : Vec3.cross (triCoords.getD 1 0 - triCoords.getD 0 0)
        (triCoords.getD 2 0 - triCoords.getD 0 0) = ⟨0, 0, 1⟩ := by
      show Vec3.cross ((⟨1, 0, 0⟩ : Vec3) - ⟨0, 0, 0⟩)
        ((⟨0, 1, 0⟩ : Vec3) - ⟨0, 0, 0⟩) = ⟨0, 0, 1⟩
      ext <;> simp [Vec3.cross]
    rw [hcr]
    intro h
    have hz := congrArg Vec3.z h
    norm_num at hz)

end
